import Mathlib

/-!
Verification of the outbox dispatch and durability subsystem of the
whatsapp-bot-server repository (`src/index.js`), as a shallow embedding:
the Supabase `messages` table becomes a list of `MessageRecord`s, the
conditional-update claim becomes a pure function on that list, the local
fallback queue becomes a list of items with an explicit JSON-style
serialization for its on-disk form, and the dispatch / flush loop bodies
become pure functions parameterised by oracles describing which remote
calls succeed.
-/

namespace WABot

/-! ### Data model -/

/-- A row of the `messages` table, with the columns `src/index.js` touches.
`attempt_count` is modelled as a `Nat` (the code reads it as
`msg.attempt_count || 0`); `created_at` is an abstract timestamp used only
as the ordering key. -/
structure MessageRecord where
  id : Nat
  chat_id : Option Nat
  sender : String
  numero : Option String
  message : Option String
  media_url : Option String
  status : String
  in_progress : Bool
  attempt_count : Nat
  whatsapp_message_id : Option String
  created_at : Nat
deriving DecidableEq, Repr

/-- An entry of the local fallback queue (`localQueue`, src/index.js:38:
`array of {type, payload, created_at}`). Payloads are modelled as flat
string-or-null fields keyed by name; `created_at` is the ISO timestamp
string `enqueueLocal` attaches. -/
structure Item where
  type : String
  payload : List (String × Option String)
  created_at : String
deriving DecidableEq, Repr

/-- JavaScript truthiness of a nullable string (`""` and `null` are falsy). -/
def jsTruthyStr : Option String → Bool
  | none => false
  | some s => !(s == "")

/-- JavaScript truthiness of a nullable number (`0` and `null` are falsy). -/
def jsTruthyNat : Option Nat → Bool
  | none => false
  | some n => !(n == 0)

/-- `normalizeNumber` (src/index.js:79-84): keep only digit characters,
returning `null` for a falsy argument or when no digit remains. -/
def normalizeNumber (raw : String) : Option String :=
  if raw = "" then none
  else
    let digits := raw.data.filter Char.isDigit
    if digits.isEmpty then none else some (String.mk digits)

/-- `toJid` (src/index.js:85-89): pass through addresses already containing
`@`, otherwise append `@c.us`. -/
def toJid : Option String → Option String
  | none => none
  | some num => if num.data.contains '@' then some num else some (num ++ "@c.us")

/-! ### Outbox store: claim protocol, candidate query, failure update -/

/-- The matcher of the claim update in `dispatchLoop`
(`.match({ id: msg.id, in_progress: false, status: "approved" })`,
src/index.js:310). -/
def claimMatches (id : Nat) (r : MessageRecord) : Bool :=
  r.id == id && r.in_progress == false && r.status == "approved"

/-- The optimistic claim (src/index.js:307-312): a single conditional update
setting `in_progress := true` on every row matching
`{id, in_progress: false, status: "approved"}`; the returned `Bool` is
whether any row matched (the code checks `claimed.length === 0`). -/
def tryClaim (st : List MessageRecord) (id : Nat) :
    List MessageRecord × Bool :=
  (st.map (fun r => if claimMatches id r then { r with in_progress := true } else r),
   st.any (claimMatches id))

/-- `n` sequential `tryClaim` calls against the same record id, returning the
final store and the number of calls that won the claim. -/
def tryClaimRun : List MessageRecord → Nat → Nat → List MessageRecord × Nat
  | st, _, 0 => (st, 0)
  | st, id, n + 1 =>
    let p := tryClaim st id
    let q := tryClaimRun p.1 id n
    (q.1, (if p.2 then 1 else 0) + q.2)

/-- The failed-attempt update of `dispatchLoop` (src/index.js:358-360):
`newAttempts = (msg.attempt_count || 0) + 1`,
`newStatus = newAttempts >= 5 ? "failed" : "approved"`, and the update sets
`{ attempt_count: newAttempts, in_progress: false, status: newStatus }`. -/
def markFailedAttempt (m : MessageRecord) : MessageRecord :=
  let newAttempts := m.attempt_count + 1
  let newStatus := if newAttempts ≥ 5 then "failed" else "approved"
  { m with attempt_count := newAttempts, in_progress := false, status := newStatus }

/-- The dispatch ordering key: `created_at` ascending (src/index.js:296). -/
def byCreatedAt (a b : MessageRecord) : Prop := a.created_at ≤ b.created_at

instance : DecidableRel byCreatedAt :=
  fun a b => inferInstanceAs (Decidable (a.created_at ≤ b.created_at))

instance : IsTotal MessageRecord byCreatedAt := ⟨fun x y => Nat.le_total x.created_at y.created_at⟩

instance : IsTrans MessageRecord byCreatedAt := ⟨fun _ _ _ => Nat.le_trans⟩

/-- The where-clauses of the candidate query (src/index.js:290-295):
`status = 'approved'`, `attempt_count <= 4`, `in_progress = false`. -/
def claimFilter (r : MessageRecord) : Bool :=
  r.status == "approved" && decide (r.attempt_count ≤ 4) && r.in_progress == false

/-- The candidate query of `dispatchLoop` (src/index.js:290-297): filter by
`claimFilter`, order by `created_at` ascending, limit 5. -/
def listClaimable (st : List MessageRecord) : List MessageRecord :=
  (List.insertionSort byCreatedAt (st.filter claimFilter)).take 5

/-! ### Local fallback queue and flush worker -/

/-- `enqueueLocal` (src/index.js:60-63): append the item with a creation
timestamp (and re-persist the queue; the on-disk form is
`persistLocalQueue`). -/
def enqueueLocal (q : List Item) (type : String)
    (payload : List (String × Option String)) (now : String) : List Item :=
  q ++ [{ type := type, payload := payload, created_at := now }]

/-- The remote operation `flushLocalQueueLoop` performs for an item
(src/index.js:385-405): an `audit_log` insert, a `messages` insert with
`status: "received"`, the `set_whatsapp_status` RPC, or a storage upload. -/
inductive FlushOp where
  | insertAudit
  | insertMessage (status : String)
  | rpcStatus
  | uploadMedia
deriving DecidableEq, Repr

/-- Which remote operation the flush worker's `if`-chain performs for an
item's `type` (src/index.js:385-405); items of any other type (such as the
`dispatch_error` markers enqueued at src/index.js:368) match no branch and
cause no remote call. -/
def flushRemoteOp (i : Item) : Option FlushOp :=
  if i.type = "audit" then some .insertAudit
  else if i.type = "incoming_msg" then some (.insertMessage "received")
  else if i.type = "status" then some .rpcStatus
  else if i.type = "media_upload" then some .uploadMedia
  else none

/-- Whether a flush-worker operation writes a `messages` row with
`status='sent'` (none does: the only `messages` write it performs inserts
`status: "received"`, src/index.js:389-397). -/
def opSetsMessageSent : FlushOp → Bool
  | .insertMessage s => s == "sent"
  | _ => false

/-- Whether replaying an item would record a sent outcome in the store. -/
def itemCapturesSent (i : Item) : Bool :=
  match flushRemoteOp i with
  | some op => opSetsMessageSent op
  | none => false

/-- One item of the flush cycle (src/index.js:383-413). The client library
(supabase-js v2, pinned by the `.insert(..).select(..).single()` /
`.update(..).match(..)` call chains and the `{auth: {persistSession}}`
client option) resolves a refused insert / RPC / storage upload as
`{ error }` without throwing, and the code never checks that error object,
so the `catch` at src/index.js:409 is not reached by a remote failure and
the eviction `localQueue = localQueue.filter(x => x !== item)`
(src/index.js:407) runs unconditionally: the item is removed from the live
queue whatever the remote outcome `ok` says about its replay. -/
def flushStep (ok : Item → Bool) (queue : List Item) (item : Item) : List Item :=
  queue.erase item

/-- One cycle of `flushLocalQueueLoop` (src/index.js:381-413): iterate over
the snapshot `copy = [...localQueue]` taken at the start, evicting each
processed item from the live queue. `snapshot` is the queue content at the
start of the cycle and `live` the live queue (which may already contain
items enqueued after the snapshot was taken). -/
def flushCycle (ok : Item → Bool) (snapshot live : List Item) : List Item :=
  snapshot.foldl (flushStep ok) live

/-! ### Dispatch worker: one claimed record -/

/-- Oracle for one dispatch of a claimed record: whether the WhatsApp client
is ready, whether the channel send (including any media fetch) succeeds and
with which remote message id, and whether the two possible store updates
(`markSent`, the failed-attempt update) reach the store. -/
structure DispatchEnv where
  clientReady : Bool
  sendOk : Bool
  remoteId : Option String
  markSentOk : Bool
  failUpdateOk : Bool
deriving DecidableEq, Repr

/-- A store update attempted by the dispatch body: the sent-update
(src/index.js:348/352) or the failed-attempt update (src/index.js:360). -/
inductive StoreUpdate where
  | markSent (id : Nat) (remoteId : Option String)
  | markFailed (id : Nat) (newAttempts : Nat) (newStatus : String)
deriving DecidableEq, Repr

/-- The record id a store update targets (`.eq("id", msg.id)`). -/
def StoreUpdate.targetId : StoreUpdate → Nat
  | .markSent id _ => id
  | .markFailed id _ _ => id

/-- Outcome of processing one claimed record: the row's state in the store
afterwards, the items appended to the local fallback queue during that
processing, and the store updates that were attempted. The per-record code
path (src/index.js:305-362) contains no `enqueueLocal` call: the only
enqueue inside `dispatchLoop` (src/index.js:368) sits in the outer catch,
which is reachable only through the explicit `throw error` of the candidate
query (src/index.js:299) — the store updates at src/index.js:348/352/360
resolve `{ error }` without throwing (supabase-js v2) and their error
objects are never checked. -/
structure StepResult where
  row : MessageRecord
  queued : List Item
  attempted : List StoreUpdate
deriving DecidableEq, Repr

/-- The `dispatch_error` marker the outer catch enqueues
(src/index.js:368): `{ type: "dispatch_error", payload: { message } }`,
timestamped by `enqueueLocal`. The outer catch is reached only by the
thrown candidate-query error (src/index.js:299), never by a refused
per-record store update. -/
def dispatchErrorItem (errMsg now : String) : Item :=
  { type := "dispatch_error", payload := [("message", some errMsg)], created_at := now }

/-- The destination jid of a record
(`msg.numero ? toJid(normalizeNumber(msg.numero)) : null`, src/index.js:327). -/
def jidOf (m : MessageRecord) : Option String :=
  if jsTruthyStr m.numero then toJid (normalizeNumber (m.numero.getD "")) else none

/-- The guard `if (!jid && !msg.chat_id) throw` (src/index.js:328-330). -/
def hasDestination (m : MessageRecord) : Bool :=
  jsTruthyStr (jidOf m) || jsTruthyNat m.chat_id

/-- The failed-attempt update as a `StoreUpdate` (src/index.js:358-360). -/
def failedUpdateOf (m : MessageRecord) : StoreUpdate :=
  .markFailed m.id (m.attempt_count + 1)
    (if m.attempt_count + 1 ≥ 5 then "failed" else "approved")

/-- The `catch (sendErr)` handler (src/index.js:355-362), reached only by a
genuine exception (client not ready, no destination, a channel send or
media-fetch rejection): it attempts the failed-attempt update. The awaited
update resolves `{ error }` without throwing (supabase-js v2) and the error
object is discarded, so when the store refuses it (`¬failUpdateOk`) nothing
is raised, nothing is enqueued, and the row silently keeps the claimed state
(`in_progress=true`, `attempt_count` unchanged). `prior` records updates
already attempted before the handler ran. -/
def catchSendErr (env : DispatchEnv) (m : MessageRecord)
    (prior : List StoreUpdate) : StepResult :=
  if env.failUpdateOk then
    { row := markFailedAttempt m, queued := [],
      attempted := prior ++ [failedUpdateOf m] }
  else
    { row := { m with in_progress := true }, queued := [],
      attempted := prior ++ [failedUpdateOf m] }

/-- The `markSent` update (src/index.js:348/352):
`{ status: "sent", whatsapp_message_id, in_progress: false }`. -/
def markSentRow (m : MessageRecord) (rid : Option String) : MessageRecord :=
  { m with status := "sent", whatsapp_message_id := rid, in_progress := false }

/-- Processing of one successfully claimed record (src/index.js:323-362):
the inner `try` throws when the client is not ready, when there is no
destination, or when the channel send fails, and those exceptions go to
`catch (sendErr)`. On a successful send the `markSent` update
`{status: "sent", whatsapp_message_id, in_progress: false}` is awaited; if
the store refuses it the call resolves `{ error }` without throwing
(supabase-js v2) and the error object is never checked, so `catch (sendErr)`
does not run, nothing is enqueued, and the row silently stays claimed with
its attempt count unchanged. -/
def processClaimed (env : DispatchEnv) (m : MessageRecord) : StepResult :=
  if env.clientReady && hasDestination m && env.sendOk then
    if env.markSentOk then
      { row := markSentRow m env.remoteId, queued := [],
        attempted := [.markSent m.id env.remoteId] }
    else
      { row := { m with in_progress := true }, queued := [],
        attempted := [.markSent m.id env.remoteId] }
  else catchSendErr env m []

/-- Whether the one store update the dispatch body attempts on this record
(the `markSent` update on the send-success path, the failed-attempt update
otherwise) reaches the store. -/
def attemptedUpdateOk (env : DispatchEnv) (m : MessageRecord) : Bool :=
  if env.clientReady && hasDestination m && env.sendOk then env.markSentOk
  else env.failUpdateOk

/-! ### On-disk form of the local queue

`persistLocalQueue` (src/index.js:52-58) writes `JSON.stringify(localQueue)`
to `local_queue.json`, and the startup loader (src/index.js:41-49) reads the
file back with `JSON.parse`, falling back to `[]` when the file is absent,
empty or unparsable. The serialization is modelled character by character:
JSON string escaping for `"` and `\`, object braces around the payload
fields, and the three keys `type`, `payload`, `created_at` in the insertion
order `enqueueLocal` produces (the pretty-printing whitespace of
`JSON.stringify(·, null, 2)` is immaterial to `JSON.parse` and omitted). -/

/-- JSON escaping of one character: `"` and `\` get a backslash. -/
def escChar (c : Char) : List Char :=
  if c = '\"' ∨ c = '\\' then ['\\', c] else [c]

/-- JSON escaping of a string body. -/
def escape (s : List Char) : List Char := s.flatMap escChar

/-- A JSON string literal: `"` body `"` with escaping. -/
def encStr (s : String) : List Char := '\"' :: (escape s.data ++ ['\"'])

/-- A JSON string-or-null value. -/
def encOptStr : Option String → List Char
  | none => ['n', 'u', 'l', 'l']
  | some s => encStr s

/-- A JSON object member `"key":value`. -/
def encPair (p : String × Option String) : List Char :=
  encStr p.1 ++ ':' :: encOptStr p.2

/-- Comma-separated concatenation. -/
def sepByComma : List (List Char) → List Char
  | [] => []
  | [x] => x
  | x :: xs => x ++ ',' :: sepByComma xs

/-- A JSON object of string-or-null members. -/
def encObj (ps : List (String × Option String)) : List Char :=
  '\x7b' :: (sepByComma (ps.map encPair) ++ ['\x7d'])

/-- A queue item as a JSON object with keys `type`, `payload`,
`created_at` — the key order `enqueueLocal` produces. -/
def encItem (it : Item) : List Char :=
  '\x7b' :: (encStr "type" ++ ':' :: encStr it.type
    ++ ',' :: (encStr "payload" ++ ':' :: encObj it.payload
    ++ ',' :: (encStr "created_at" ++ ':' :: encStr it.created_at ++ ['\x7d'])))

/-- `JSON.stringify(localQueue)`: the queue as a JSON array. -/
def stringifyQueue (q : List Item) : String :=
  String.mk ('[' :: (sepByComma (q.map encItem) ++ [']']))

/-- `persistLocalQueue` (src/index.js:52-58): the file content written to
`local_queue.json`. -/
def persistLocalQueue (q : List Item) : String := stringifyQueue q

/-- Parse a JSON string body up to its closing quote, undoing escapes;
returns the decoded characters and the remaining input. -/
def parseStrBody : List Char → Option (List Char × List Char)
  | [] => none
  | c :: rest =>
    if c = '\"' then some ([], rest)
    else if c = '\\' then
      match rest with
      | [] => none
      | c2 :: rest2 =>
        match parseStrBody rest2 with
        | none => none
        | some (s, r) => some (c2 :: s, r)
    else
      match parseStrBody rest with
      | none => none
      | some (s, r) => some (c :: s, r)

/-- Parse a JSON string literal into a `String`. -/
def parseField : List Char → Option (String × List Char)
  | '\"' :: r =>
    match parseStrBody r with
    | none => none
    | some (s, r2) => some (String.mk s, r2)
  | _ => none

/-- Parse a JSON string-or-null value. -/
def parseOptStr : List Char → Option (Option String × List Char)
  | 'n' :: 'u' :: 'l' :: 'l' :: rest => some (none, rest)
  | '\"' :: r =>
    match parseStrBody r with
    | none => none
    | some (s, r2) => some (some (String.mk s), r2)
  | _ => none

/-- Parse one JSON object member `"key":value`. -/
def parsePair (l : List Char) : Option ((String × Option String) × List Char) :=
  match parseField l with
  | none => none
  | some (k, r) =>
    match r with
    | ':' :: r2 =>
      match parseOptStr r2 with
      | none => none
      | some (v, r3) => some ((k, v), r3)
    | _ => none

/-- Parse the members of a JSON object after its opening brace, up to and
including the closing brace; `fuel` bounds the number of members. -/
def parsePairsAux : Nat → List Char → Option (List (String × Option String) × List Char)
  | 0, _ => none
  | fuel + 1, l =>
    if l.head? = some '\x7d' then some ([], l.tail)
    else
      match parsePair l with
      | none => none
      | some (p, r) =>
        match r with
        | ',' :: r2 =>
          match parsePairsAux fuel r2 with
          | none => none
          | some (ps, r3) => some (p :: ps, r3)
        | '\x7d' :: r2 => some ([p], r2)
        | _ => none

/-- Parse a JSON object of string-or-null members. -/
def parseObj (fuel : Nat) : List Char → Option (List (String × Option String) × List Char)
  | '\x7b' :: r => parsePairsAux fuel r
  | _ => none

/-- Parse one queue item: an object with the fixed keys `type`, `payload`,
`created_at`. -/
def parseItem (fuel : Nat) : List Char → Option (Item × List Char)
  | '\x7b' :: r0 =>
    match parseField r0 with
    | some (k1, ':' :: r1) =>
      if k1 = "type" then
        match parseField r1 with
        | some (tv, ',' :: r2) =>
          match parseField r2 with
          | some (k2, ':' :: r3) =>
            if k2 = "payload" then
              match parseObj fuel r3 with
              | some (ps, ',' :: r4) =>
                match parseField r4 with
                | some (k3, ':' :: r5) =>
                  if k3 = "created_at" then
                    match parseField r5 with
                    | some (cv, '\x7d' :: r6) =>
                      some ({ type := tv, payload := ps, created_at := cv }, r6)
                    | _ => none
                  else none
                | _ => none
              | _ => none
            else none
          | _ => none
        | _ => none
      else none
    | _ => none
  | _ => none

/-- Parse the items of the JSON array after its opening bracket, up to and
including the closing bracket; `fuel` bounds the number of items. -/
def parseItemsAux : Nat → List Char → Option (List Item × List Char)
  | 0, _ => none
  | fuel + 1, l =>
    if l.head? = some ']' then some ([], l.tail)
    else
      match parseItem (fuel + 1) l with
      | none => none
      | some (it, r) =>
        match r with
        | ',' :: r2 =>
          match parseItemsAux fuel r2 with
          | none => none
          | some (its, r3) => some (it :: its, r3)
        | ']' :: r2 => some ([it], r2)
        | _ => none

/-- Parse a whole queue file: a JSON array consuming the entire input. -/
def parseQueue (fuel : Nat) : List Char → Option (List Item)
  | '[' :: r =>
    match parseItemsAux fuel r with
    | some (its, []) => some its
    | _ => none
  | _ => none

/-- The startup loader (src/index.js:41-49): parse the persisted file,
falling back to the empty queue when the content cannot be parsed. -/
def loadOnStartup (raw : String) : List Item :=
  (parseQueue (raw.data.length + 1) raw.data).getD []

/-! ### Backoff helper and loop poll intervals -/

/-- The sleep between empty dispatch polls (`await sleep(1500)`,
src/index.js:301). -/
def dispatchIdleSleepMs : Nat := 1500

/-- The sleep after a dispatch-loop error (`await sleep(3000)`,
src/index.js:369). -/
def dispatchErrorSleepMs : Nat := 3000

/-- The sleep between empty flush polls (`await sleep(5000)`,
src/index.js:378). -/
def flushIdleSleepMs : Nat := 5000

/-- The sleep between flush cycles (`await sleep(2000)`, src/index.js:414). -/
def flushCycleSleepMs : Nat := 2000

/-- `exponentialBackoff` (src/index.js:95-108) as a pure run: `fn j` tells
whether the `j`-th call of the wrapped function (0-based) succeeds. The loop
counter `i` starts at 0; on the failure of call `i` the counter becomes
`i + 1`, and unless the attempt budget is exhausted the loop sleeps
`base * 2 ^ ((i + 1) - 1) = base * 2 ^ i` before the next call. Returns
whether a call succeeded within `attempts` and the list of waits slept. -/
def backoffRun (fn : Nat → Bool) (attempts base : Nat) (i : Nat) :
    Bool × List Nat :=
  if h : i < attempts then
    if fn i then (true, [])
    else if attempts ≤ i + 1 then (false, [])
    else
      let wait := base * 2 ^ i
      let r := backoffRun fn attempts base (i + 1)
      (r.1, wait :: r.2)
  else (false, [])
termination_by attempts - i
decreasing_by omega

/-! ### HTTP endpoint: POST /send -/

/-- A `messages` row as written by an insert (the columns appearing in the
various `supabase.from("messages").insert` calls). -/
structure NewMessageRow where
  chat_id : Option Nat
  sender : String
  numero : Option String
  message : Option String
  media_url : Option String
  status : String
  whatsapp_message_id : Option String
  nome : Option String
  cognome : Option String
deriving DecidableEq, Repr

/-- The JSON body of a `POST /send` request (src/index.js:444). -/
structure SendBody where
  toNumber : Option String
  message : Option String
  nome : Option String
  cognome : Option String
  chat_id : Option Nat
deriving DecidableEq, Repr

/-- The `POST /send` handler (src/index.js:443-464): refuse 503 when the
WhatsApp client is not ready, refuse 400 when both `to` and `chat_id` are
falsy; otherwise insert
`{chat_id, sender: "admin", numero, message, status: "approved", nome, cognome}`
and answer 200, or 500 when the insert itself fails (`insertOk`).
The result is the HTTP status code and the row inserted, if any. -/
def handlePostSend (clientReady : Bool) (body : SendBody) (insertOk : Bool) :
    Nat × Option NewMessageRow :=
  if !clientReady then (503, none)
  else if !jsTruthyStr body.toNumber && !jsTruthyNat body.chat_id then (400, none)
  else
    let numero := if jsTruthyStr body.toNumber then normalizeNumber (body.toNumber.getD "") else none
    let row : NewMessageRow :=
      { chat_id := body.chat_id, sender := "admin", numero := numero,
        message := body.message, media_url := none, status := "approved",
        whatsapp_message_id := none, nome := body.nome, cognome := body.cognome }
    if insertOk then (200, some row) else (500, none)

/-- The code sites, across both source files, that insert a row into the
`messages` table. -/
inductive MessagesInsertSite where
  /-- `POST /send` (src/index.js:450-458). -/
  | postSend
  /-- The incoming-message handler (src/index.js:263-271). -/
  | incomingMessage
  /-- The flush worker's `incoming_msg` replay (src/index.js:389-397). -/
  | flushIncoming
  /-- The incoming-message handler of the legacy variant
  (src/unnamed/part_000). -/
  | legacyIncoming
  /-- `POST /send` of the legacy variant (src/unnamed/part_000), which sends
  synchronously and records the row with `status: "sent"`. -/
  | legacyPostSend
deriving DecidableEq, Repr

/-- The `status` literal each insert site writes into the new row. -/
def insertStatus : MessagesInsertSite → String
  | .postSend => "approved"
  | .incomingMessage => "received"
  | .flushIncoming => "received"
  | .legacyIncoming => "received"
  | .legacyPostSend => "sent"

/-- The `sender` literal each insert site writes into the new row. -/
def insertSender : MessagesInsertSite → String
  | .postSend => "admin"
  | .incomingMessage => "whatsapp"
  | .flushIncoming => "whatsapp"
  | .legacyIncoming => "whatsapp"
  | .legacyPostSend => "admin"

/-! ### Concrete sample data -/

/-- A sample well-formed `POST /send` body. -/
def bodyHello : SendBody :=
  { toNumber := some "+39 333 1234567", message := some "test msg",
    nome := some "Ada", cognome := none, chat_id := none }

/-- A `POST /send` body with neither `to` nor `chat_id`. -/
def bodyNoDest : SendBody :=
  { toNumber := none, message := some "test msg", nome := none, cognome := none,
    chat_id := none }

/-- A sample approved, unclaimed record. -/
def recApproved : MessageRecord :=
  { id := 1, chat_id := some 7, sender := "admin", numero := some "393331234567",
    message := some "hello", media_url := none, status := "approved",
    in_progress := false, attempt_count := 0, whatsapp_message_id := none,
    created_at := 10 }

/-- A sample terminal (already sent) record. -/
def recSent : MessageRecord :=
  { recApproved with id := 2, status := "sent", created_at := 11 }

/-- `recApproved` after four failed attempts. -/
def recAtFour : MessageRecord := { recApproved with attempt_count := 4 }

/-- Environment where the channel send succeeds but the store refuses the
`markSent` update (the unchecked failed-attempt oracle is irrelevant on this
path, since the refused update raises no exception). -/
def envMarkSentUnreachable : DispatchEnv :=
  { clientReady := true, sendOk := true, remoteId := some "wamid.1",
    markSentOk := false, failUpdateOk := true }

/-- Environment where the channel send fails and the store is unreachable
for the subsequent failed-attempt update. -/
def envStoreUnreachable : DispatchEnv :=
  { clientReady := true, sendOk := false, remoteId := none,
    markSentOk := false, failUpdateOk := false }

/-- A sample audit item in the fallback queue. -/
def itemAudit : Item :=
  { type := "audit", payload := [("action", some "server_started")], created_at := "a1" }

/-- A sample status item in the fallback queue. -/
def itemStatus : Item :=
  { type := "status", payload := [("status", some "connected")], created_at := "a2" }

/-- A sample incoming-message item, enqueued after the flush snapshot. -/
def itemArrival : Item :=
  { type := "incoming_msg", payload := [("body", some "hi")], created_at := "a3" }

/-- A sample remote oracle: audit inserts succeed, everything else fails. -/
def okAuditOnly (i : Item) : Bool := i.type == "audit"

/-! ### Theorems -/

lemma claimMatches_eq_true {id : Nat} {r : MessageRecord} :
    claimMatches id r = true ↔
      r.id = id ∧ r.status = "approved" ∧ r.in_progress = false := by
  simp [claimMatches, Bool.and_eq_true, beq_iff_eq]
  tauto

lemma tryClaim_any_false (st : List MessageRecord) (id : Nat) :
    ((tryClaim st id).1.any (claimMatches id)) = false := by
  simp only [tryClaim, List.any_map, List.any_eq_false, Function.comp]
  intro r _
  by_cases h : claimMatches id r = true
  · rw [if_pos h]
    simp [claimMatches]
  · rw [if_neg h]
    simpa using h

lemma tryClaim_of_any_false {st : List MessageRecord} {id : Nat}
    (h : st.any (claimMatches id) = false) : tryClaim st id = (st, false) := by
  simp only [tryClaim, h]
  rw [Prod.mk.injEq]
  refine ⟨?_, rfl⟩
  rw [List.any_eq_false] at h
  induction st with
  | nil => rfl
  | cons a l ih =>
    simp only [List.map_cons]
    rw [if_neg (by simpa using h a (by simp)), ih (fun r hr => h r (by simp [hr]))]

lemma tryClaimRun_of_any_false {st : List MessageRecord} {id : Nat}
    (h : st.any (claimMatches id) = false) :
    ∀ n, tryClaimRun st id n = (st, 0) := by
  intro n
  induction n with
  | zero => rfl
  | succ n ih =>
    simp only [tryClaimRun, tryClaim_of_any_false h]
    simp [ih]

/-- **C1.** The claim operation wins iff the stored row with the given id had
`status='approved'` and `in_progress=false` at claim time; of any number of
sequential `tryClaim` calls against an initially claimable record exactly one
succeeds; and a claim never succeeds against a store whose rows with that id
are terminal (`sent` or `failed`), leaving the store unchanged. -/
theorem tryClaim_correct (st : List MessageRecord) (id : Nat) (n : Nat) :
    ((tryClaim st id).2 = true ↔ ∃ r ∈ st, r.id = id ∧ r.status = "approved" ∧ r.in_progress = false)
    ∧ (st.any (claimMatches id) = true → 1 ≤ n → (tryClaimRun st id n).2 = 1)
    ∧ ((∀ r ∈ st, r.id = id → r.status = "sent" ∨ r.status = "failed") →
        tryClaim st id = (st, false)) := by
  refine ⟨?_, ?_, ?_⟩
  · simp only [tryClaim, List.any_eq_true]
    constructor
    · rintro ⟨r, hr, hm⟩
      exact ⟨r, hr, claimMatches_eq_true.mp hm⟩
    · rintro ⟨r, hr, h1, h2, h3⟩
      exact ⟨r, hr, claimMatches_eq_true.mpr ⟨h1, h2, h3⟩⟩
  · intro hany hn
    match n, hn with
    | n + 1, _ =>
      simp only [tryClaimRun]
      rw [tryClaimRun_of_any_false (by simpa using tryClaim_any_false st id) n]
      simp [tryClaim, hany]
  · intro hterm
    apply tryClaim_of_any_false
    rw [List.any_eq_false]
    intro r hr
    intro hm
    rcases claimMatches_eq_true.mp hm with ⟨h1, h2, _⟩
    rcases hterm r hr h1 with h | h <;> rw [h2] at h <;> exact absurd h (by decide)

/-- Witness for C1 at concrete inputs: three claim attempts against a fresh
approved record yield exactly one success, and a claim against a store holding
only a `sent` record fails and leaves the store unchanged. -/
theorem tryClaim_correct_witness :
    (tryClaimRun [recApproved] 1 3).2 = 1 ∧ tryClaim [recSent] 2 = ([recSent], false) :=
  ⟨(tryClaim_correct [recApproved] 1 3).2.1 (by decide) (by decide),
   (tryClaim_correct [recSent] 2 0).2.2 (by decide)⟩

/-- **C4.** The failed-attempt update increments `attempt_count` by one (so it
never decreases), always clears `in_progress`, sets `status='failed'` exactly
when the new count reaches `maxAttempts` (5) — otherwise it resets
`status='approved'` — and in particular a record with `attempt_count=4` ends
terminal with count 5 and is no longer claimable. -/
theorem markFailedAttempt_correct (m : MessageRecord) :
    (markFailedAttempt m).attempt_count = m.attempt_count + 1
    ∧ m.attempt_count < (markFailedAttempt m).attempt_count
    ∧ (markFailedAttempt m).in_progress = false
    ∧ ((markFailedAttempt m).status = "failed" ↔ 5 ≤ m.attempt_count + 1)
    ∧ (¬ 5 ≤ m.attempt_count + 1 → (markFailedAttempt m).status = "approved")
    ∧ (m.attempt_count = 4 →
        (markFailedAttempt m).status = "failed"
        ∧ (markFailedAttempt m).attempt_count = 5
        ∧ claimMatches (markFailedAttempt m).id (markFailedAttempt m) = false) := by
  refine ⟨rfl, Nat.lt_succ_self _, rfl, ?_, ?_, ?_⟩
  · by_cases h : 5 ≤ m.attempt_count + 1
    · simp [markFailedAttempt, if_pos h, h]
    · simp [markFailedAttempt, if_neg h, h]
  · intro h
    simp [markFailedAttempt, if_neg h]
    omega
  · intro h
    refine ⟨?_, by simp [markFailedAttempt, h], ?_⟩
    · simp [markFailedAttempt, h]
    · simp [claimMatches, markFailedAttempt, h]

/-- Witness for C4: the scenario-B record (`attempt_count=4`) ends failed,
with count 5 and unclaimable. -/
theorem markFailedAttempt_correct_witness :
    (markFailedAttempt recAtFour).status = "failed"
    ∧ (markFailedAttempt recAtFour).attempt_count = 5
    ∧ claimMatches (markFailedAttempt recAtFour).id (markFailedAttempt recAtFour) = false :=
  (markFailedAttempt_correct recAtFour).2.2.2.2.2 (by decide)

/-- **C5.** Every record the candidate query returns satisfies
`status='approved' ∧ in_progress=false ∧ attempt_count < 5`; the returned
sequence is sorted by `created_at` ascending and has length at most 5. -/
theorem listClaimable_correct (st : List MessageRecord) (r : MessageRecord)
    (hr : r ∈ listClaimable st) :
    (r.status = "approved" ∧ r.in_progress = false ∧ r.attempt_count < 5)
    ∧ List.Sorted byCreatedAt (listClaimable st)
    ∧ (listClaimable st).length ≤ 5 := by
  refine ⟨?_, ?_, ?_⟩
  · have h1 : r ∈ List.insertionSort byCreatedAt (st.filter claimFilter) :=
      List.mem_of_mem_take hr
    have h2 : r ∈ st.filter claimFilter :=
      (List.perm_insertionSort byCreatedAt (st.filter claimFilter)).mem_iff.mp h1
    have h3 := (List.mem_filter.mp h2).2
    simp only [claimFilter, Bool.and_eq_true, beq_iff_eq, decide_eq_true_eq] at h3
    exact ⟨h3.1.1, h3.2, Nat.lt_succ_of_le h3.1.2⟩
  · exact (List.sorted_insertionSort byCreatedAt (st.filter claimFilter)).sublist
      (List.take_sublist 5 _)
  · exact List.length_take_le 5 _

/-- Witness for C5 at a concrete store: the approved record is returned (the
sent one is not) and satisfies the claimable predicate. -/
theorem listClaimable_correct_witness :
    recApproved ∈ listClaimable [recSent, recApproved]
    ∧ (recApproved.status = "approved" ∧ recApproved.in_progress = false
        ∧ recApproved.attempt_count < 5)
    ∧ (listClaimable [recSent, recApproved]).length ≤ 5 := by
  have hmem : recApproved ∈ listClaimable [recSent, recApproved] := by decide
  have h := listClaimable_correct [recSent, recApproved] recApproved hmem
  exact ⟨hmem, h.1, h.2.2⟩

lemma itemCapturesSent_false (i : Item) : itemCapturesSent i = false := by
  unfold itemCapturesSent flushRemoteOp
  by_cases h1 : i.type = "audit"
  · simp [h1, opSetsMessageSent]
  · by_cases h2 : i.type = "incoming_msg"
    · simp [h1, h2, opSetsMessageSent]
    · by_cases h3 : i.type = "status"
      · simp [h1, h2, h3, opSetsMessageSent]
      · by_cases h4 : i.type = "media_upload"
        · simp [h1, h2, h3, h4, opSetsMessageSent]
        · simp [h1, h2, h3, h4]

/-- **C2 (counterexample).** Claim C2 is false as stated: with the channel
send succeeding and the store refusing the `markSent` update, *nothing* is
captured in the local fallback queue — the awaited update resolves
`{ error }` without throwing (supabase-js v2) and the error object is never
checked — and the stored row silently stays claimed:
`status='approved'`, `in_progress=true`, `attempt_count` still 0. -/
theorem markSent_failure_counterexample :
    (processClaimed envMarkSentUnreachable recApproved).queued = []
    ∧ (processClaimed envMarkSentUnreachable recApproved).row.status = "approved"
    ∧ (processClaimed envMarkSentUnreachable recApproved).row.in_progress = true
    ∧ (processClaimed envMarkSentUnreachable recApproved).row.attempt_count = 0 := by
  decide

/-- **C2 (amended).** When the store refuses the `markSent` update after a
successful send, the success *is* lost: the awaited update resolves
`{ error }` without throwing and the error object is never checked, so no
exception is raised, `catch (sendErr)` does not run, nothing is enqueued
into the local fallback queue, and the stored row keeps the claimed state —
`in_progress=true`, attempt count unchanged, status never `sent` — and is
not claimable again, so the message is not re-delivered either. Moreover no
fallback-queue item of any kind could ever reflect a sent outcome, since no
flush-worker branch writes a `messages` row with `status='sent'`. -/
theorem markSent_failure_not_captured (env : DispatchEnv) (m : MessageRecord)
    (hm : m.status = "approved") (hready : env.clientReady = true)
    (hdest : hasDestination m = true) (hsend : env.sendOk = true)
    (hms : env.markSentOk = false) :
    (processClaimed env m).queued = []
    ∧ (processClaimed env m).row = { m with in_progress := true }
    ∧ (processClaimed env m).row.status ≠ "sent"
    ∧ (processClaimed env m).row.attempt_count = m.attempt_count
    ∧ claimMatches m.id (processClaimed env m).row = false
    ∧ (∀ i : Item, itemCapturesSent i = false) := by
  have hp : (env.clientReady && hasDestination m && env.sendOk) = true := by
    rw [hready, hdest, hsend]
    rfl
  simp [processClaimed, hp, hms, claimMatches, hm, itemCapturesSent_false]

/-- Witness for the amended C2: at the concrete environment where the
`markSent` update is refused, nothing is enqueued and the row does not read
`sent`. -/
theorem markSent_failure_not_captured_witness :
    (processClaimed envMarkSentUnreachable recApproved).queued = []
    ∧ (processClaimed envMarkSentUnreachable recApproved).row.status ≠ "sent" :=
  ⟨(markSent_failure_not_captured envMarkSentUnreachable recApproved
      (by decide) (by decide) (by decide) (by decide) (by decide)).1,
   (markSent_failure_not_captured envMarkSentUnreachable recApproved
      (by decide) (by decide) (by decide) (by decide) (by decide)).2.2.1⟩

/-- **C3 (counterexample).** Claim C3 is false as stated: with the send
failing and the store refusing the failed-attempt update, the iteration
completes — no exception escapes, since the awaited update resolves
`{ error }` unchecked — with the record still `in_progress=true` and
nothing enqueued, contradicting "no record remains with inProgress=true and
no reachable path to a terminal or re-claimable state". -/
theorem stuck_in_progress_counterexample :
    (processClaimed envStoreUnreachable recApproved).row.in_progress = true
    ∧ (processClaimed envStoreUnreachable recApproved).queued = [] := by
  decide

/-- **C3 (amended).** Every path of the dispatch body attempts exactly one
of `markSent` / the failed-attempt update against the claimed record's id,
and when that update reaches the store the record ends `in_progress=false`;
but when the store refuses it, the awaited call resolves `{ error }`
unchecked — no exception escapes to the outer catch and nothing is diverted
to the local fallback queue — and the record remains `in_progress=true` and
unclaimable after the completed iteration: it is permanently stuck. -/
theorem claimed_always_updated (env : DispatchEnv) (m : MessageRecord) :
    ((processClaimed env m).attempted ≠ []
      ∧ ∀ u ∈ (processClaimed env m).attempted, u.targetId = m.id)
    ∧ (processClaimed env m).queued = []
    ∧ (attemptedUpdateOk env m = true →
        (processClaimed env m).row.in_progress = false)
    ∧ (attemptedUpdateOk env m = false →
        (processClaimed env m).row.in_progress = true
        ∧ claimMatches m.id (processClaimed env m).row = false) := by
  by_cases hp : (env.clientReady && hasDestination m && env.sendOk) = true
  · by_cases hms : env.markSentOk = true
    · simp [processClaimed, attemptedUpdateOk, hp, hms, StoreUpdate.targetId,
        markSentRow]
    · rw [Bool.not_eq_true] at hms
      simp [processClaimed, attemptedUpdateOk, hp, hms, StoreUpdate.targetId,
        claimMatches]
  · rw [Bool.not_eq_true] at hp
    by_cases hf : env.failUpdateOk = true
    · simp [processClaimed, catchSendErr, attemptedUpdateOk, hp, hf,
        StoreUpdate.targetId, failedUpdateOf, markFailedAttempt]
    · rw [Bool.not_eq_true] at hf
      simp [processClaimed, catchSendErr, attemptedUpdateOk, hp, hf,
        StoreUpdate.targetId, failedUpdateOf, claimMatches]

/-- Witness for the amended C3 at a concrete input: the store-refused run
attempted an update yet left the record claimed and unclaimable. -/
theorem claimed_always_updated_witness :
    (processClaimed envStoreUnreachable recApproved).attempted ≠ []
    ∧ (processClaimed envStoreUnreachable recApproved).row.in_progress = true
    ∧ claimMatches recApproved.id (processClaimed envStoreUnreachable recApproved).row = false :=
  ⟨(claimed_always_updated envStoreUnreachable recApproved).1.1,
   ((claimed_always_updated envStoreUnreachable recApproved).2.2.2 (by decide)).1,
   ((claimed_always_updated envStoreUnreachable recApproved).2.2.2 (by decide)).2⟩

lemma foldl_flushStep_eq (ok : Item → Bool) :
    ∀ (s live : List Item), live.Nodup →
      s.foldl (flushStep ok) live = live.filter (fun x => !(s.contains x)) := by
  intro s
  induction s with
  | nil =>
    intro live _
    simp
  | cons i s ih =>
    intro live hnd
    simp only [List.foldl_cons]
    rw [show flushStep ok live i = live.erase i from rfl,
      ih (live.erase i) (hnd.erase i), hnd.erase_eq_filter i, List.filter_filter]
    apply List.filter_congr
    intro x _
    by_cases hxi : x = i
    · subst hxi
      simp
    · simp [hxi]

/-- **C6 (code-bug evidence).** A flush cycle over the snapshot `q` of a
live queue `q ++ arrivals` evicts *every* snapshot item, whatever the
remote oracle `ok` says about its replay: the awaited replays resolve
`{ error }` without throwing (supabase-js v2) and the error objects are
never checked, so the catch at src/index.js:409 is unreachable for remote
failures and the eviction at src/index.js:407 runs unconditionally. An item
whose replay failed is *not* left for the next cycle — its write is lost —
contradicting the claim; items enqueued after the snapshot survive the
cycle untouched. -/
theorem flushCycle_evicts_regardless (ok : Item → Bool) (q arrivals : List Item)
    (h : (q ++ arrivals).Nodup) :
    flushCycle ok q (q ++ arrivals) = arrivals
    ∧ (∀ i ∈ q, i ∉ flushCycle ok q (q ++ arrivals)) := by
  have hdisj : ∀ a ∈ q, a ∉ arrivals := by
    intro a ha hb
    exact (List.nodup_append.mp h).2.2 ha hb
  have hmain : flushCycle ok q (q ++ arrivals) = arrivals := by
    rw [flushCycle, foldl_flushStep_eq ok q (q ++ arrivals) h, List.filter_append]
    have h1 : q.filter (fun x => !(q.contains x)) = [] := by
      rw [List.filter_eq_nil_iff]
      intro x hx
      simp [hx]
    have h2 : arrivals.filter (fun x => !(q.contains x)) = arrivals := by
      rw [List.filter_eq_self]
      intro x hx
      simp
      exact fun hq => hdisj x hq hx
    rw [h1, h2, List.nil_append]
  refine ⟨hmain, ?_⟩
  intro i hi hmem
  rw [hmain] at hmem
  exact hdisj i hi hmem

/-- Witness for C6's code-bug evidence at a concrete queue: under
`okAuditOnly` the status item's remote replay fails, yet the cycle evicts it
all the same, leaving only the post-snapshot arrival. -/
theorem flushCycle_evicts_regardless_witness :
    flushCycle okAuditOnly [itemAudit, itemStatus]
        ([itemAudit, itemStatus] ++ [itemArrival]) = [itemArrival]
    ∧ itemStatus ∉ flushCycle okAuditOnly [itemAudit, itemStatus]
        ([itemAudit, itemStatus] ++ [itemArrival]) :=
  ⟨(flushCycle_evicts_regardless okAuditOnly [itemAudit, itemStatus]
      [itemArrival] (by decide)).1,
   (flushCycle_evicts_regardless okAuditOnly [itemAudit, itemStatus]
      [itemArrival] (by decide)).2 itemStatus (by decide)⟩

lemma backoffRun_getElem (fn : Nat → Bool) (a b : Nat) :
    ∀ k i, i + k + 1 < a → (∀ j, j ≤ i + k → fn j = false) →
      ((backoffRun fn a b i).2)[k]? = some (b * 2 ^ (i + k)) := by
  intro k
  induction k with
  | zero =>
    intro i hlt hf
    rw [backoffRun, dif_pos (by omega : i < a), if_neg (by simp [hf i (by omega)]),
      if_neg (by omega : ¬ a ≤ i + 1)]
    simp
  | succ k ih =>
    intro i hlt hf
    rw [backoffRun, dif_pos (by omega : i < a), if_neg (by simp [hf i (by omega)]),
      if_neg (by omega : ¬ a ≤ i + 1)]
    simpa [Nat.add_assoc, Nat.add_comm 1 k, Nat.add_left_comm]
      using ih (i + 1) (by omega) (fun j hj => hf j (by omega))

/-- **C8.** Whenever the first `n` calls of the wrapped function fail
(`1 ≤ n < attempts`), the bounded-retry helper `exponentialBackoff` sleeps
exactly `base * 2 ^ (n - 1)` before retry `n`; the dispatch and flush loops,
by contrast, use the fixed poll intervals 1500/3000 ms and 5000/2000 ms. -/
theorem exponentialBackoff_delay (fn : Nat → Bool) (attempts base n : Nat)
    (h1 : 1 ≤ n) (h2 : n < attempts) (hf : ∀ j, j < n → fn j = false) :
    ((backoffRun fn attempts base 0).2)[n - 1]? = some (base * 2 ^ (n - 1))
    ∧ dispatchIdleSleepMs = 1500 ∧ dispatchErrorSleepMs = 3000
    ∧ flushIdleSleepMs = 5000 ∧ flushCycleSleepMs = 2000 := by
  refine ⟨?_, rfl, rfl, rfl, rfl⟩
  have := backoffRun_getElem fn attempts base (n - 1) 0 (by omega)
    (fun j hj => hf j (by omega))
  simpa using this

/-- Witness for C8: with every call failing, a 5-attempt run with base 500
sleeps 2000 ms (= 500·2²) before retry 3. -/
theorem exponentialBackoff_delay_witness :
    ((backoffRun (fun _ => false) 5 500 0).2)[2]? = some 2000 := by
  have := (exponentialBackoff_delay (fun _ => false) 5 500 3 (by decide) (by decide)
    (fun _ _ => rfl)).1
  simpa using this

/-- **C9.** Every row `POST /send` inserts has `status='approved'` and
`sender='admin'`, and `POST /send` is the only `messages`-insert site in the
repository writing `status='approved'` — the other sites write `received`
(incoming messages, flush replay) or `sent` (the legacy synchronous
endpoint). -/
theorem postSend_sole_approved_entry (clientReady : Bool) (body : SendBody)
    (insertOk : Bool) (row : NewMessageRow)
    (h : (handlePostSend clientReady body insertOk).2 = some row) :
    row.status = "approved" ∧ row.sender = "admin"
    ∧ insertStatus .postSend = "approved" ∧ insertSender .postSend = "admin"
    ∧ (∀ p : MessagesInsertSite, insertStatus p = "approved" ↔ p = .postSend) := by
  refine ⟨?_, ?_, rfl, rfl, ?_⟩
  · simp only [handlePostSend] at h
    split at h
    · cases h
    · split at h
      · cases h
      · split at h
        · cases h
          rfl
        · cases h
  · simp only [handlePostSend] at h
    split at h
    · cases h
    · split at h
      · cases h
      · split at h
        · cases h
          rfl
        · cases h
  · intro p
    cases p <;> simp [insertStatus]

/-- Witness for C9: a concrete accepted request inserts an approved admin
row. -/
theorem postSend_sole_approved_entry_witness :
    ((handlePostSend true bodyHello true).2.getD
        { chat_id := none, sender := "", numero := none, message := none,
          media_url := none, status := "", whatsapp_message_id := none,
          nome := none, cognome := none }).status = "approved" := by
  have h := postSend_sole_approved_entry true bodyHello true
    ((handlePostSend true bodyHello true).2.getD
      { chat_id := none, sender := "", numero := none, message := none,
        media_url := none, status := "", whatsapp_message_id := none,
        nome := none, cognome := none }) (by decide)
  exact h.1

/-- **C10.** `POST /send` answers 503 and inserts nothing whenever the
WhatsApp client is not ready (regardless of the body), and — when the client
is ready — answers 400 and inserts nothing when both `to` and `chat_id` are
absent from the body. -/
theorem postSend_guards (body : SendBody) (insertOk : Bool) :
    handlePostSend false body insertOk = (503, none)
    ∧ (body.toNumber = none → body.chat_id = none →
        handlePostSend true body insertOk = (400, none)) := by
  constructor
  · rfl
  · intro h1 h2
    simp [handlePostSend, h1, h2, jsTruthyStr, jsTruthyNat]

/-- Witness for C10: the concrete destination-less body is refused with 400
when the client is ready, and any body is refused with 503 when it is not. -/
theorem postSend_guards_witness :
    handlePostSend false bodyHello true = (503, none)
    ∧ handlePostSend true bodyNoDest true = (400, none) :=
  ⟨(postSend_guards bodyHello true).1,
   (postSend_guards bodyNoDest true).2 rfl rfl⟩

lemma string_mk_data (s : String) : String.mk s.data = s := by
  cases s
  rfl

lemma parseStrBody_escape (s rest : List Char) :
    parseStrBody (escape s ++ '\"' :: rest) = some (s, rest) := by
  induction s with
  | nil =>
    show parseStrBody ('\"' :: rest) = some ([], rest)
    rw [parseStrBody.eq_def]
    dsimp only
    rw [if_pos rfl]
  | cons c s ih =>
    by_cases hc : c = '\"' ∨ c = '\\'
    · have he : escape (c :: s) = '\\' :: c :: escape s := by
        simp [escape, escChar, hc]
      rw [he, List.cons_append, List.cons_append, parseStrBody.eq_def]
      dsimp only
      rw [if_neg (by decide), if_pos rfl]
      simp [ih]
    · push_neg at hc
      have he : escape (c :: s) = c :: escape s := by
        simp [escape, escChar, hc.1, hc.2]
      rw [he, List.cons_append, parseStrBody.eq_def]
      dsimp only
      rw [if_neg hc.1, if_neg hc.2]
      simp [ih]

lemma encStr_explode (k : String) (X : List Char) :
    encStr k ++ X = '\"' :: (escape k.data ++ '\"' :: X) := by
  simp [encStr]

lemma parseField_encStr (k : String) (rest : List Char) :
    parseField (encStr k ++ rest) = some (k, rest) := by
  rw [encStr_explode]
  simp [parseField, parseStrBody_escape, string_mk_data]

lemma parseOptStr_enc (v : Option String) (rest : List Char) :
    parseOptStr (encOptStr v ++ rest) = some (v, rest) := by
  cases v with
  | none => simp [encOptStr, parseOptStr]
  | some s =>
    show parseOptStr (encStr s ++ rest) = _
    rw [encStr_explode]
    simp [parseOptStr, parseStrBody_escape, string_mk_data]

lemma parsePair_enc (p : String × Option String) (rest : List Char) :
    parsePair (encPair p ++ rest) = some (p, rest) := by
  have h : encPair p ++ rest = encStr p.1 ++ (':' :: (encOptStr p.2 ++ rest)) := by
    simp [encPair]
  rw [h]
  simp [parsePair, parseField_encStr, parseOptStr_enc]

lemma encPair_head (p : String × Option String) (X : List Char) :
    (encPair p ++ X).head? = some '\"' := by
  simp [encPair, encStr]

lemma parsePairsAux_enc :
    ∀ (ps : List (String × Option String)) (fuel : Nat) (rest : List Char),
      ps.length < fuel →
      parsePairsAux fuel (sepByComma (ps.map encPair) ++ '\x7d' :: rest)
        = some (ps, rest) := by
  intro ps
  induction ps with
  | nil =>
    intro fuel rest hlen
    match fuel, hlen with
    | fuel + 1, _ => simp [sepByComma, parsePairsAux]
  | cons p ps ih =>
    intro fuel rest hlen
    match fuel, hlen with
    | fuel + 1, hlen =>
      cases ps with
      | nil =>
        have h : sepByComma ([p].map encPair) ++ '\x7d' :: rest
            = encPair p ++ '\x7d' :: rest := by simp [sepByComma]
        rw [h, parsePairsAux, if_neg (by rw [encPair_head]; decide)]
        simp [parsePair_enc]
      | cons q tl =>
        have h : sepByComma ((p :: q :: tl).map encPair) ++ '\x7d' :: rest
            = encPair p ++ (',' :: (sepByComma ((q :: tl).map encPair) ++ '\x7d' :: rest)) := by
          simp [sepByComma]
        rw [h, parsePairsAux, if_neg (by rw [encPair_head]; decide)]
        have hrec := ih fuel rest (by simpa using Nat.lt_of_succ_lt_succ hlen)
        simp only [List.map_cons] at hrec
        simp [parsePair_enc, hrec]

lemma encObj_explode (ps : List (String × Option String)) (X : List Char) :
    encObj ps ++ X = '\x7b' :: (sepByComma (ps.map encPair) ++ '\x7d' :: X) := by
  simp [encObj]

lemma parseObj_enc (ps : List (String × Option String)) (fuel : Nat)
    (rest : List Char) (hlen : ps.length < fuel) :
    parseObj fuel (encObj ps ++ rest) = some (ps, rest) := by
  rw [encObj_explode]
  simp [parseObj, parsePairsAux_enc ps fuel rest hlen]

lemma encItem_explode (it : Item) (X : List Char) :
    encItem it ++ X
      = '\x7b' :: (encStr "type" ++ (':' :: (encStr it.type
        ++ (',' :: (encStr "payload" ++ (':' :: (encObj it.payload
        ++ (',' :: (encStr "created_at" ++ (':' :: (encStr it.created_at
        ++ ('\x7d' :: X)))))))))))) := by
  simp [encItem]

lemma parseItem_enc (it : Item) (fuel : Nat) (rest : List Char)
    (hlen : it.payload.length < fuel) :
    parseItem fuel (encItem it ++ rest) = some (it, rest) := by
  rw [encItem_explode]
  simp [parseItem, parseField_encStr, parseObj_enc it.payload fuel _ hlen]

lemma encItem_head (it : Item) (X : List Char) :
    (encItem it ++ X).head? = some '\x7b' := by
  simp [encItem]

lemma parseItemsAux_enc :
    ∀ (q : List Item) (fuel : Nat) (rest : List Char),
      q.length < fuel → (∀ it ∈ q, it.payload.length + q.length < fuel) →
      parseItemsAux fuel (sepByComma (q.map encItem) ++ ']' :: rest)
        = some (q, rest) := by
  intro q
  induction q with
  | nil =>
    intro fuel rest hlen _
    match fuel, hlen with
    | fuel + 1, _ => simp [sepByComma, parseItemsAux]
  | cons x q ih =>
    intro fuel rest hlen hpay
    match fuel, hlen with
    | fuel + 1, hlen =>
      have hx : x.payload.length < fuel + 1 := by
        have := hpay x (by simp)
        simp at this
        omega
      cases q with
      | nil =>
        have h : sepByComma ([x].map encItem) ++ ']' :: rest
            = encItem x ++ ']' :: rest := by simp [sepByComma]
        rw [h, parseItemsAux, if_neg (by rw [encItem_head]; decide)]
        simp [parseItem_enc x (fuel + 1) _ hx]
      | cons y tl =>
        have h : sepByComma ((x :: y :: tl).map encItem) ++ ']' :: rest
            = encItem x ++ (',' :: (sepByComma ((y :: tl).map encItem) ++ ']' :: rest)) := by
          simp [sepByComma]
        rw [h, parseItemsAux, if_neg (by rw [encItem_head]; decide)]
        have hrec := ih fuel rest (by simpa using Nat.lt_of_succ_lt_succ hlen)
          (by
            intro it hit
            have := hpay it (by simp [hit])
            simp at this ⊢
            omega)
        simp only [List.map_cons] at hrec
        simp [parseItem_enc x (fuel + 1) _ hx, hrec]

lemma sepByComma_length_ge (xs : List (List Char)) :
    xs.length ≤ (sepByComma xs).length + 1 := by
  induction xs with
  | nil => simp [sepByComma]
  | cons x xs ih =>
    cases xs with
    | nil => simp [sepByComma]
    | cons y tl =>
      simp only [sepByComma, List.length_append, List.length_cons] at ih ⊢
      omega

lemma sepByComma_length_mem (xs : List (List Char)) (x : List Char)
    (hx : x ∈ xs) : x.length ≤ (sepByComma xs).length := by
  induction xs with
  | nil => cases hx
  | cons a xs ih =>
    cases xs with
    | nil =>
      rcases List.mem_singleton.mp hx with rfl
      simp [sepByComma]
    | cons y tl =>
      rcases List.mem_cons.mp hx with rfl | hmem
      · simp only [sepByComma, List.length_append, List.length_cons]
        omega
      · have := ih hmem
        simp only [sepByComma, List.length_append, List.length_cons] at this ⊢
        omega

lemma encItem_length_ge (it : Item) :
    it.payload.length + 1 ≤ (encItem it).length := by
  have h := sepByComma_length_ge (it.payload.map encPair)
  simp only [List.length_map] at h
  simp only [encItem, encObj, List.length_cons, List.length_append]
  omega

lemma payload_length_bound (q : List Item) :
    ∀ it ∈ q, it.payload.length + q.length
      ≤ (sepByComma (q.map encItem)).length + 1 := by
  induction q with
  | nil => intro it hit; cases hit
  | cons x q ih =>
    intro it hit
    cases q with
    | nil =>
      rcases List.mem_singleton.mp hit with rfl
      have := encItem_length_ge it
      simp only [List.map_cons, List.map_nil, sepByComma, List.length_cons,
        List.length_nil]
      omega
    | cons y tl =>
      have hsep : sepByComma ((x :: y :: tl).map encItem)
          = encItem x ++ ',' :: sepByComma ((y :: tl).map encItem) := by
        simp [sepByComma]
      have hq : (y :: tl).length ≤ (sepByComma ((y :: tl).map encItem)).length + 1 := by
        have := sepByComma_length_ge ((y :: tl).map encItem)
        simpa using this
      rcases List.mem_cons.mp hit with rfl | hmem
      · have h3 := encItem_length_ge it
        rw [hsep]
        simp only [List.length_append, List.length_cons] at hq ⊢
        omega
      · have := ih it hmem
        have h3 := encItem_length_ge x
        rw [hsep]
        simp only [List.length_append, List.length_cons] at this ⊢
        omega

/-- **C7.** Round trip of the local fallback queue through its on-disk form:
`enqueueLocal` appends the item with its creation timestamp, and the startup
loader applied to the persisted file reproduces exactly the pending items in
their original order — `loadOnStartup (persistLocalQueue q) = q` for every
queue, in particular after an enqueue. -/
theorem localQueue_roundTrip (q : List Item) (type : String)
    (payload : List (String × Option String)) (now : String) :
    loadOnStartup (persistLocalQueue q) = q
    ∧ enqueueLocal q type payload now
        = q ++ [{ type := type, payload := payload, created_at := now }]
    ∧ loadOnStartup (persistLocalQueue (enqueueLocal q type payload now))
        = q ++ [{ type := type, payload := payload, created_at := now }] := by
  have main : ∀ q' : List Item, loadOnStartup (persistLocalQueue q') = q' := by
    intro q'
    have hdata : (persistLocalQueue q').data
        = '[' :: (sepByComma (q'.map encItem) ++ [']']) := rfl
    rw [loadOnStartup, hdata]
    set fuel := ('[' :: (sepByComma (q'.map encItem) ++ [']'])).length + 1 with hfuel
    have hflen : fuel = (sepByComma (q'.map encItem)).length + 3 := by
      simp [hfuel]
    cases q' with
    | nil =>
      simp [parseQueue, sepByComma, parseItemsAux, hfuel]
    | cons x tl =>
      have hlen : (x :: tl).length < fuel := by
        have := sepByComma_length_ge ((x :: tl).map encItem)
        simp only [List.length_map] at this
        omega
      have hpay : ∀ it ∈ x :: tl, it.payload.length + (x :: tl).length < fuel := by
        intro it hit
        have := payload_length_bound (x :: tl) it hit
        omega
      have harr : '[' :: (sepByComma ((x :: tl).map encItem) ++ [']'])
          = '[' :: (sepByComma ((x :: tl).map encItem) ++ ']' :: []) := rfl
      rw [harr]
      have hinst := parseItemsAux_enc (x :: tl) fuel [] hlen hpay
      simp only [List.map_cons] at hinst
      simp [parseQueue, hinst]
  exact ⟨main q, rfl, main _⟩

end WABot
